import Mathlib

/-!
Shallow embedding of `src/gcode_generator.py` over the real numbers.

Python floats are modelled as real numbers.  The module-level mutable
`move_log` list and the append-only output file are modelled together as an
explicit state `S` threaded through the functions.  An uncaught Python
exception (`ZeroDivisionError`) is modelled as `Option.none`.
-/

/-- Embedding of Python `math.radians`: degrees to radians. -/
noncomputable def radians (deg : ℝ) : ℝ := deg * (Real.pi / 180)

/-- How a numeric value is interpolated into an output line: `fixed4` for an
f-string `:.4f` format spec, `rawRepr` for bare interpolation with no format
spec (Python prints the float's repr). -/
inductive NumFmt where
  | fixed4
  | rawRepr
deriving DecidableEq

/-- One numeric field of an output line: the axis letter written before the
number, the value, and how the value is formatted. -/
structure GField where
  axis : String
  value : ℝ
  fmt : NumFmt

/-- One emitted output line: the leading command text, the numeric fields in
order, and any literal text glued after the last field (such as the lone
period ending the `angular_move` line, or the trailing `H01`). -/
structure GLine where
  head : String
  fields : List GField
  tail : String

/-- One `move_log` entry: the tuple `(x, z, type)` appended by the source,
where either coordinate may be Python `None`. -/
structure MoveEntry where
  x : Option ℝ
  z : Option ℝ
  kind : String

/-- Program state: the module-level `move_log` list together with the lines
written to the output file so far. -/
structure S where
  log : List MoveEntry
  out : List GLine

/-- Embedding of `write(lines)`: append the lines to the output file. -/
def write (s : S) (lines : List GLine) : S := ⟨s.log, s.out ++ lines⟩

/-- Embedding of `write_header()`: the fixed 7-line preamble. -/
def write_header (s : S) : S :=
  write s [⟨"G00", [], ""⟩, ⟨"G90 G94 G17", [], ""⟩, ⟨"G20", [], ""⟩,
    ⟨"G28 G91 Z0.", [], ""⟩, ⟨"G90", [], ""⟩, ⟨"M09", [], ""⟩, ⟨"G00 G54", [], ""⟩]

/-- Embedding of `rapid_move(x, y, z)`: two output lines (`G00 X.. Y..` and
`G43 Z.. H01`), then one log entry `(x, z, 'rapid')`. -/
def rapid_move (s : S) (x y z : ℝ) : S :=
  let s1 := write s [⟨"G00", [⟨"X", x, NumFmt.fixed4⟩, ⟨"Y", y, NumFmt.fixed4⟩], ""⟩,
    ⟨"G43", [⟨"Z", z, NumFmt.fixed4⟩], "H01"⟩]
  ⟨s1.log ++ [⟨some x, some z, "rapid"⟩], s1.out⟩

/-- Embedding of `slow_move_z(z, speed_ipm)`: one output line, one log entry
with `x = None`. -/
def slow_move_z (s : S) (z speed_ipm : ℝ) : S :=
  let s1 := write s [⟨"G01", [⟨"Z", z, NumFmt.fixed4⟩, ⟨"F", speed_ipm, NumFmt.fixed4⟩], ""⟩]
  ⟨s1.log ++ [⟨none, some z, "slow"⟩], s1.out⟩

/-- Embedding of `slow_move_x(x, speed_ipm)`: one output line, one log entry
with `z = None`. -/
def slow_move_x (s : S) (x speed_ipm : ℝ) : S :=
  let s1 := write s [⟨"G01", [⟨"X", x, NumFmt.fixed4⟩, ⟨"F", speed_ipm, NumFmt.fixed4⟩], ""⟩]
  ⟨s1.log ++ [⟨some x, none, "slow"⟩], s1.out⟩

/-- Embedding of `angular_move(angle_deg, current_x, current_z, z_depth, down)`.
The source divides by `math.tan(math.radians(angle_deg))`; Python raises
`ZeroDivisionError` exactly when that float divisor equals `0.0`, which for
IEEE doubles happens only at `angle_deg = 0` (for every nonzero double both
the radian value and its tangent round to nonzero doubles), so the failure is
modelled by the guard `angle_deg = 0` returning `none`.  The module global
`cut_speed_ipm`, read for the feed field, is passed explicitly as the first
argument.  Note that in the source f-string the feed value is interpolated
without a format spec and is followed by a literal period. -/
noncomputable def angular_move (cut_speed_ipm angle_deg current_x current_z z_depth : ℝ)
    (down : Bool) (s : S) : Option ((ℝ × ℝ) × S) :=
  if angle_deg = 0 then none else
  let angle_rad := radians angle_deg
  let dz := |z_depth|
  let dx0 := dz / Real.tan angle_rad
  let dx := if down then dx0 else -dx0
  let zd := if down then z_depth else -z_depth
  let target_x := current_x + dx
  let target_z := current_z - zd
  let s1 := write s [⟨"G01", [⟨"X", target_x, NumFmt.fixed4⟩, ⟨"Z", target_z, NumFmt.fixed4⟩,
    ⟨"F", cut_speed_ipm, NumFmt.rawRepr⟩], "."⟩]
  some ((target_x, target_z),
    ⟨s1.log ++ [⟨some target_x, some target_z, if down then "cut" else "retract"⟩], s1.out⟩)

/-- The configurable parameter block at the top of the source file. -/
structure Params where
  blade_width_in : ℝ
  wax_width_in : ℝ
  wax_length_in : ℝ
  z_retract_height_in : ℝ
  z_clearance_height_in : ℝ
  cut_depth_in : ℝ
  cut_spacing_in : ℝ
  cut_angle_deg : ℝ
  cut_speed_ipm : ℝ

/-- The literal values of the configurable block in the source. -/
noncomputable def defaultParams : Params :=
  ⟨2.99213, 2, 4, 0.04, 0.5, 0.00393701, 0.0023622, 56, 1.0⟩

/-- Embedding of Python `int(...)` applied to a float: truncation toward 0. -/
noncomputable def pyInt (x : ℝ) : ℤ := if 0 ≤ x then ⌊x⌋ else -⌊-x⌋

/-- One iteration of the cut loop in `main`: the controlled lateral step to
`i * cut_spacing_in`, the plunge (`down = True`) from
`(retracted_x, z_retract_height_in)` with depth `cut_depth_in +
z_retract_height_in`, and the retract (`down = False`) from the plunge's
returned position with the same depth. -/
noncomputable def cut_cycle (p : Params) (i : ℕ) (s : S) : Option S :=
  let retracted_x := (i : ℝ) * p.cut_spacing_in
  let s1 := slow_move_x s retracted_x 1
  (angular_move p.cut_speed_ipm p.cut_angle_deg retracted_x p.z_retract_height_in
    (p.cut_depth_in + p.z_retract_height_in) true s1).bind fun r =>
    (angular_move p.cut_speed_ipm p.cut_angle_deg r.1.1 r.1.2
      (p.cut_depth_in + p.z_retract_height_in) false r.2).map fun r2 => r2.2

/-- The first `n` iterations (`i = 0, …, n-1`, in order) of the cut loop. -/
noncomputable def run_cuts (p : Params) (s : S) : ℕ → Option S
  | 0 => some s
  | n + 1 => (run_cuts p s n).bind (cut_cycle p n)

/-- Value of `int(wax_length_in / cut_spacing_in)`, the loop bound in `main`. -/
noncomputable def cut_count (p : Params) : ℤ := pyInt (p.wax_length_in / p.cut_spacing_in)

/-- Embedding of `main()` (the `os.remove` of a stale output file is modelled
by starting from the empty state; the final `plot_moves()` only reads the log).
When `cut_spacing_in = 0` the loop-bound division raises `ZeroDivisionError`,
modelled as `none`; the guard sits where the source evaluates the division,
after the header and the two setup moves. -/
noncomputable def main (p : Params) : Option S :=
  let y_position := -(p.blade_width_in / 2) - (p.wax_width_in / 2)
  let s1 := write_header ⟨[], []⟩
  let s2 := rapid_move s1 0 y_position p.z_clearance_height_in
  let s3 := slow_move_z s2 p.z_retract_height_in 25
  if p.cut_spacing_in = 0 then none
  else run_cuts p s3 (cut_count p).toNat

/-- Holds when every numeric field of every line written so far carries the
4-decimal `:.4f` format. -/
def allFieldsFixed4 (s : S) : Prop :=
  ∀ l ∈ s.out, ∀ fld ∈ l.fields, fld.fmt = NumFmt.fixed4

/-- Parameters whose cut loop runs exactly once: wax length 1, spacing 1. -/
noncomputable def oneCycleParams : Params :=
  ⟨2.99213, 2, 1, 0.04, 0.5, 0.00393701, 1, 56, 1.0⟩

/-- Parameters with spacing exceeding length, so `int(1 / 2) = 0` cut cycles. -/
noncomputable def zeroCycleParams : Params :=
  ⟨2.99213, 2, 1, 0.04, 0.5, 0.00393701, 2, 56, 1.0⟩

/-- Parameters whose length is not a multiple of the spacing:
`int(2.5 / 1) = 2` cut cycles. -/
noncomputable def fracCycleParams : Params :=
  ⟨2.99213, 2, 2.5, 0.04, 0.5, 0.00393701, 1, 56, 1.0⟩

/-! ### Helper lemmas -/

theorem radians_ninety : radians 90 = Real.pi / 2 := by unfold radians; ring

theorem radians_forty_five : radians 45 = Real.pi / 4 := by unfold radians; ring

theorem tan_radians_forty_five : Real.tan (radians 45) = 1 := by
  rw [radians_forty_five, Real.tan_pi_div_four]

theorem tan_radians_nonneg (a : ℝ) (h1 : 0 < a) (h2 : a ≤ 90) :
    0 ≤ Real.tan (radians a) := by
  rcases eq_or_lt_of_le h2 with h | h
  · rw [h, radians_ninety, Real.tan_pi_div_two]
  · have hp : 0 < Real.pi / 180 := by positivity
    refine le_of_lt (Real.tan_pos_of_pos_of_lt_pi_div_two ?_ ?_)
    · unfold radians; positivity
    · calc a * (Real.pi / 180) < 90 * (Real.pi / 180) := by
            exact mul_lt_mul_of_pos_right h hp
        _ = Real.pi / 2 := by ring

theorem angular_move_down_eq (f a x z d : ℝ) (s : S) (ha : a ≠ 0) :
    angular_move f a x z d true s =
      some ((x + |d| / Real.tan (radians a), z - d),
        ⟨s.log ++ [⟨some (x + |d| / Real.tan (radians a)), some (z - d), "cut"⟩],
         s.out ++ [⟨"G01", [⟨"X", x + |d| / Real.tan (radians a), NumFmt.fixed4⟩,
           ⟨"Z", z - d, NumFmt.fixed4⟩, ⟨"F", f, NumFmt.rawRepr⟩], "."⟩]⟩) := by
  simp [angular_move, write, ha]

theorem angular_move_up_eq (f a x z d : ℝ) (s : S) (ha : a ≠ 0) :
    angular_move f a x z d false s =
      some ((x - |d| / Real.tan (radians a), z + d),
        ⟨s.log ++ [⟨some (x - |d| / Real.tan (radians a)), some (z + d), "retract"⟩],
         s.out ++ [⟨"G01", [⟨"X", x - |d| / Real.tan (radians a), NumFmt.fixed4⟩,
           ⟨"Z", z + d, NumFmt.fixed4⟩, ⟨"F", f, NumFmt.rawRepr⟩], "."⟩]⟩) := by
  simp [angular_move, write, ha, sub_eq_add_neg, sub_neg_eq_add]

theorem cut_cycle_eq (p : Params) (ha : p.cut_angle_deg ≠ 0) (i : ℕ) (s : S) :
    cut_cycle p i s = some
      ⟨s.log ++
        [⟨some ((i : ℝ) * p.cut_spacing_in), none, "slow"⟩,
         ⟨some ((i : ℝ) * p.cut_spacing_in +
            |p.cut_depth_in + p.z_retract_height_in| / Real.tan (radians p.cut_angle_deg)),
          some (-p.cut_depth_in), "cut"⟩,
         ⟨some ((i : ℝ) * p.cut_spacing_in), some p.z_retract_height_in, "retract"⟩],
       s.out ++
        [⟨"G01", [⟨"X", (i : ℝ) * p.cut_spacing_in, NumFmt.fixed4⟩,
           ⟨"F", 1, NumFmt.fixed4⟩], ""⟩,
         ⟨"G01", [⟨"X", (i : ℝ) * p.cut_spacing_in +
             |p.cut_depth_in + p.z_retract_height_in| / Real.tan (radians p.cut_angle_deg),
             NumFmt.fixed4⟩,
           ⟨"Z", -p.cut_depth_in, NumFmt.fixed4⟩,
           ⟨"F", p.cut_speed_ipm, NumFmt.rawRepr⟩], "."⟩,
         ⟨"G01", [⟨"X", (i : ℝ) * p.cut_spacing_in, NumFmt.fixed4⟩,
           ⟨"Z", p.z_retract_height_in, NumFmt.fixed4⟩,
           ⟨"F", p.cut_speed_ipm, NumFmt.rawRepr⟩], "."⟩]⟩ := by
  have hz : p.z_retract_height_in - (p.cut_depth_in + p.z_retract_height_in) =
      -p.cut_depth_in := by ring
  simp only [cut_cycle, slow_move_x, write]
  rw [angular_move_down_eq _ _ _ _ _ _ ha]
  simp only [Option.some_bind]
  rw [angular_move_up_eq _ _ _ _ _ _ ha]
  simp only [Option.map_some, write, hz]
  have hx : (i : ℝ) * p.cut_spacing_in +
      |p.cut_depth_in + p.z_retract_height_in| / Real.tan (radians p.cut_angle_deg) -
      |p.cut_depth_in + p.z_retract_height_in| / Real.tan (radians p.cut_angle_deg) =
      (i : ℝ) * p.cut_spacing_in := add_sub_cancel_right _ _
  have hz2 : -p.cut_depth_in + (p.cut_depth_in + p.z_retract_height_in) =
      p.z_retract_height_in := by ring
  simp only [hx, hz2]
  simp [List.append_assoc]

theorem cut_cycle_lengths (p : Params) (ha : p.cut_angle_deg ≠ 0) (i : ℕ) (s : S) :
    ∃ s', cut_cycle p i s = some s' ∧ s'.log.length = s.log.length + 3 ∧
      s'.out.length = s.out.length + 3 := by
  exact ⟨_, cut_cycle_eq p ha i s, by simp, by simp⟩

theorem run_cuts_lengths (p : Params) (ha : p.cut_angle_deg ≠ 0) (s : S) (n : ℕ) :
    ∃ s', run_cuts p s n = some s' ∧ s'.log.length = s.log.length + 3 * n ∧
      s'.out.length = s.out.length + 3 * n := by
  induction n with
  | zero => exact ⟨s, rfl, by simp, by simp⟩
  | succ n ih =>
    obtain ⟨t, ht, h1, h2⟩ := ih
    obtain ⟨u, hu, h3, h4⟩ := cut_cycle_lengths p ha n t
    refine ⟨u, ?_, ?_, ?_⟩
    · show (run_cuts p s n).bind (cut_cycle p n) = some u
      rw [ht, Option.some_bind, hu]
    · rw [h3, h1]; ring
    · rw [h4, h2]; ring

theorem main_lengths (p : Params) (hsp : p.cut_spacing_in ≠ 0) (ha : p.cut_angle_deg ≠ 0) :
    ∃ s', main p = some s' ∧ s'.log.length = 2 + 3 * (cut_count p).toNat ∧
      s'.out.length = 10 + 3 * (cut_count p).toNat := by
  obtain ⟨s', hs', h1, h2⟩ := run_cuts_lengths p ha
    (slow_move_z (rapid_move (write_header ⟨[], []⟩) 0
      (-(p.blade_width_in / 2) - (p.wax_width_in / 2)) p.z_clearance_height_in)
      p.z_retract_height_in 25) (cut_count p).toNat
  refine ⟨s', ?_, ?_, ?_⟩
  · simp only [main]
    rw [if_neg hsp]
    exact hs'
  · rw [h1]
    norm_num [slow_move_z, rapid_move, write_header, write]
  · rw [h2]
    norm_num [slow_move_z, rapid_move, write_header, write]

theorem pyInt_of_nonneg (x : ℝ) (h : 0 ≤ x) : pyInt x = ⌊x⌋ := by
  unfold pyInt
  rw [if_pos h]

theorem pyInt_natCast (k : ℕ) : pyInt (k : ℝ) = k := by
  rw [pyInt_of_nonneg _ (Nat.cast_nonneg k), Int.floor_natCast]

theorem cut_count_exact (p : Params) (k : ℕ) (hsp : 0 < p.cut_spacing_in)
    (hlen : p.wax_length_in = k * p.cut_spacing_in) : cut_count p = k := by
  unfold cut_count
  rw [hlen, mul_div_cancel_right₀ _ (ne_of_gt hsp), pyInt_natCast]

theorem cut_count_oneCycle : cut_count oneCycleParams = 1 := by
  have h := cut_count_exact oneCycleParams 1 (by norm_num [oneCycleParams])
    (by norm_num [oneCycleParams])
  simpa using h

theorem cut_count_zeroCycle : cut_count zeroCycleParams = 0 := by
  unfold cut_count zeroCycleParams
  rw [pyInt_of_nonneg _ (by norm_num), Int.floor_eq_zero_iff]
  constructor <;> norm_num

/-! ### Claim theorems -/

/-- C1: for every `angle_deg` in the open-closed interval (0, 90] and every
`z_depth ≥ 0`, `angular_move` returns a target whose vertical displacement
magnitude is exactly `z_depth`, whose horizontal displacement magnitude is
`z_depth / tan(angle_deg in radians)`, and whose signs are as dictated by
`down`: descending gives `target_x = current_x + dx`, `target_z = current_z -
z_depth`; retracting inverts both signs. -/
theorem angular_move_target_spec (f a x z d : ℝ) (down : Bool) (s : S)
    (h1 : 0 < a) (h2 : a ≤ 90) (h3 : 0 ≤ d) :
    ∃ tx tz s', angular_move f a x z d down s = some ((tx, tz), s') ∧
      |tz - z| = d ∧ |tx - x| = d / Real.tan (radians a) ∧
      (down = true → tx = x + d / Real.tan (radians a) ∧ tz = z - d) ∧
      (down = false → tx = x - d / Real.tan (radians a) ∧ tz = z + d) := by
  have ha : a ≠ 0 := ne_of_gt h1
  have ht : 0 ≤ Real.tan (radians a) := tan_radians_nonneg a h1 h2
  have habs : |d| = d := abs_of_nonneg h3
  have hq : 0 ≤ d / Real.tan (radians a) := div_nonneg h3 ht
  cases down
  · refine ⟨x - |d| / Real.tan (radians a), z + d, _,
      angular_move_up_eq f a x z d s ha, ?_, ?_, ?_, ?_⟩
    · rw [add_sub_cancel_left, habs]
    · rw [habs]
      have he : x - d / Real.tan (radians a) - x = -(d / Real.tan (radians a)) := by ring
      rw [he, abs_neg, abs_of_nonneg hq]
    · intro h
      exact absurd h (by simp)
    · intro h
      exact ⟨by rw [habs], rfl⟩
  · refine ⟨x + |d| / Real.tan (radians a), z - d, _,
      angular_move_down_eq f a x z d s ha, ?_, ?_, ?_, ?_⟩
    · have he : z - d - z = -d := by ring
      rw [he, abs_neg, habs]
    · rw [habs, add_sub_cancel_left, abs_of_nonneg hq]
    · intro h
      exact ⟨by rw [habs], rfl⟩
    · intro h
      exact absurd h (by simp)

/-- Witness for C1 at `angle_deg = 45`, `z_depth = 1`, descending. -/
theorem angular_move_target_spec_witness :
    (0:ℝ) < 45 ∧ (45:ℝ) ≤ 90 ∧ (0:ℝ) ≤ 1 ∧
    ∃ tx tz s', angular_move 1 45 0 0 1 true ⟨[], []⟩ = some ((tx, tz), s') ∧
      |tz - 0| = 1 ∧ |tx - 0| = 1 / Real.tan (radians 45) ∧
      (true = true → tx = 0 + 1 / Real.tan (radians 45) ∧ tz = 0 - 1) ∧
      (true = false → tx = 0 - 1 / Real.tan (radians 45) ∧ tz = 0 + 1) :=
  ⟨by norm_num, by norm_num, by norm_num,
   angular_move_target_spec 1 45 0 0 1 true ⟨[], []⟩ (by norm_num) (by norm_num) (by norm_num)⟩

/-- C2 counterexample: none of the three claimed invalid-input classes makes
the operation fail.  At `angle_deg = -45 ≤ 0` it returns a value, at
`angle_deg = 120 > 90` it returns a value, and at `z_depth = -1 < 0` it
returns a value — in each case instead of failing with a `DomainError`. -/
theorem angular_move_no_validation_cex :
    ((-45:ℝ) ≤ 0 ∧ angular_move 1 (-45) 0 0 1 true ⟨[], []⟩ ≠ none) ∧
    ((90:ℝ) < 120 ∧ angular_move 1 120 0 0 1 true ⟨[], []⟩ ≠ none) ∧
    ((-1:ℝ) < 0 ∧ angular_move 1 45 0 0 (-1) true ⟨[], []⟩ ≠ none) := by
  refine ⟨⟨by norm_num, ?_⟩, ⟨by norm_num, ?_⟩, ⟨by norm_num, ?_⟩⟩
  · rw [angular_move_down_eq 1 (-45) 0 0 1 ⟨[], []⟩ (by norm_num)]
    exact Option.some_ne_none _
  · rw [angular_move_down_eq 1 120 0 0 1 ⟨[], []⟩ (by norm_num)]
    exact Option.some_ne_none _
  · rw [angular_move_down_eq 1 45 0 0 (-1) ⟨[], []⟩ (by norm_num)]
    exact Option.some_ne_none _

/-- C2 amended: `angular_move` performs no domain validation at all.  It fails
exactly when `angle_deg = 0` — and then with a `ZeroDivisionError` from the
zero tangent, not a `DomainError` (consistent with never returning a value,
hence never `inf`/`NaN`, at 0) — while for every nonzero angle, including
negative angles, angles above 90, and any `z_depth` including negative ones,
it returns a result. -/
theorem angular_move_fail_iff_angle_zero (f a x z d : ℝ) (down : Bool) (s : S) :
    angular_move f a x z d down s = none ↔ a = 0 := by
  constructor
  · intro h
    by_contra ha
    cases down
    · rw [angular_move_up_eq f a x z d s ha] at h
      exact Option.some_ne_none _ h
    · rw [angular_move_down_eq f a x z d s ha] at h
      exact Option.some_ne_none _ h
  · intro h
    simp [angular_move, h]

/-- Witness for C2's amended theorem at `angle_deg = 0`. -/
theorem angular_move_fail_iff_angle_zero_witness :
    angular_move 1 0 0 0 1 true ⟨[], []⟩ = none ↔ (0:ℝ) = 0 :=
  angular_move_fail_iff_angle_zero 1 0 0 0 1 true ⟨[], []⟩

/-- C3 counterexample: from the origin at 45° with depth 1 the plunge ends at
(1, -1) and the composed retract returns exactly to (0, 0); the claimed final
lateral position `x + 2·Δx = 2` does not occur. -/
theorem round_trip_cex :
    ((angular_move 1 45 0 0 1 true ⟨[], []⟩).bind fun r =>
        angular_move 1 45 r.1.1 r.1.2 1 false r.2).map Prod.fst = some ((0:ℝ), (0:ℝ)) ∧
      (0:ℝ) ≠ 0 + 2 * (1 / Real.tan (radians 45)) := by
  constructor
  · rw [angular_move_down_eq 1 45 0 0 1 ⟨[], []⟩ (by norm_num)]
    rw [Option.some_bind]
    rw [angular_move_up_eq 1 45 _ _ 1 _ (by norm_num)]
    simp only [Option.map_some']
    norm_num
  · rw [tan_radians_forty_five]
    norm_num

/-- C3 amended: a plunge followed by a retract with identical angle and depth,
the retract starting from the plunge's end position, returns the tool exactly
to its starting `x` and `z`: the net lateral offset of the pair is 0, not
`+2·Δx` (the per-cycle lateral advance comes solely from the separate lateral
step). -/
theorem round_trip_returns_to_start (f a x z d : ℝ) (s : S) (ha : a ≠ 0) :
    ((angular_move f a x z d true s).bind fun r =>
        angular_move f a r.1.1 r.1.2 d false r.2).map Prod.fst = some (x, z) := by
  rw [angular_move_down_eq f a x z d s ha]
  rw [Option.some_bind]
  rw [angular_move_up_eq f a _ _ d _ ha]
  simp only [Option.map_some']
  rw [add_sub_cancel_right, sub_add_cancel]

/-- Witness for C3's amended theorem at 45° from (0, 0) with depth 1. -/
theorem round_trip_returns_to_start_witness :
    ((angular_move 1 45 0 0 1 true ⟨[], []⟩).bind fun r =>
        angular_move 1 45 r.1.1 r.1.2 1 false r.2).map Prod.fst = some ((0:ℝ), (0:ℝ)) :=
  round_trip_returns_to_start 1 45 0 0 1 ⟨[], []⟩ (by norm_num)

/-- C4 counterexample: with parameters producing exactly N = 1 cut cycle, the
full move log has 5 entries — neither 2 + 2·1 = 4 (reading "2 + 2N" as the
total) nor 2 + 2·1 + 2 = 6 (reading it as the count after the two setup
entries): each cycle appends 3 entries, not 2. -/
theorem move_log_count_cex :
    (main oneCycleParams).map (fun s => s.log.length) = some 5 ∧
      (5:ℕ) ≠ 2 + 2 * 1 ∧ (5:ℕ) ≠ 2 + 2 * 1 + 2 := by
  obtain ⟨s', h1, h2, _⟩ := main_lengths oneCycleParams (by norm_num [oneCycleParams])
    (by norm_num [oneCycleParams])
  refine ⟨?_, by norm_num, by norm_num⟩
  rw [h1, Option.map_some', h2, cut_count_oneCycle]
  rfl

/-- C4 amended: for a plan whose cut loop runs N times, the move log contains
exactly 2 + 3N entries in total: the two setup entries (the rapid to the start
position and the controlled descent to retract height) plus, per cycle, one
lateral-step entry, one plunge entry and one retract entry. -/
theorem main_log_length (p : Params) (hsp : p.cut_spacing_in ≠ 0)
    (ha : p.cut_angle_deg ≠ 0) :
    ∃ s', main p = some s' ∧ s'.log.length = 2 + 3 * (cut_count p).toNat := by
  obtain ⟨s', h1, h2, _⟩ := main_lengths p hsp ha
  exact ⟨s', h1, h2⟩

/-- Witness for C4's amended theorem at the one-cycle parameters. -/
theorem main_log_length_witness :
    oneCycleParams.cut_spacing_in ≠ 0 ∧ oneCycleParams.cut_angle_deg ≠ 0 ∧
    ∃ s', main oneCycleParams = some s' ∧
      s'.log.length = 2 + 3 * (cut_count oneCycleParams).toNat :=
  ⟨by norm_num [oneCycleParams], by norm_num [oneCycleParams],
   main_log_length oneCycleParams (by norm_num [oneCycleParams])
     (by norm_num [oneCycleParams])⟩

/-- C5 counterexample: a successful `angular_move` call appends to the move
log and writes a line to the output stream, so it does not leave them
unchanged. -/
theorem angular_move_side_effect_cex :
    ∃ r, angular_move 1 56 0 0 1 true ⟨[], []⟩ = some r ∧
      r.2.log ≠ ([] : List MoveEntry) ∧ r.2.out ≠ ([] : List GLine) := by
  refine ⟨_, angular_move_down_eq 1 56 0 0 1 ⟨[], []⟩ (by norm_num), by simp, by simp⟩

/-- C5 amended: the target returned by `angular_move` is a deterministic
function of its arguments alone — two calls with identical inputs, from any
two ambient states, return the identical target — but the call is not free of
side effects: each successful call appends exactly one entry to the move log
and exactly one line to the output stream. -/
theorem angular_move_deterministic_effects (f a x z d : ℝ) (down : Bool) (s t : S)
    (ha : a ≠ 0) :
    ∃ tx tz, (angular_move f a x z d down s).map Prod.fst = some (tx, tz) ∧
      (angular_move f a x z d down t).map Prod.fst = some (tx, tz) ∧
      ∃ e l, angular_move f a x z d down s =
        some ((tx, tz), ⟨s.log ++ [e], s.out ++ [l]⟩) := by
  cases down
  · exact ⟨x - |d| / Real.tan (radians a), z + d,
      by rw [angular_move_up_eq f a x z d s ha]; rfl,
      by rw [angular_move_up_eq f a x z d t ha]; rfl,
      _, _, angular_move_up_eq f a x z d s ha⟩
  · exact ⟨x + |d| / Real.tan (radians a), z - d,
      by rw [angular_move_down_eq f a x z d s ha]; rfl,
      by rw [angular_move_down_eq f a x z d t ha]; rfl,
      _, _, angular_move_down_eq f a x z d s ha⟩

/-- Witness for C5's amended theorem at 56° from (0, 0) with depth 1, from two
different ambient states. -/
theorem angular_move_deterministic_effects_witness :
    ∃ tx tz, (angular_move 1 56 0 0 1 true ⟨[], []⟩).map Prod.fst = some (tx, tz) ∧
      (angular_move 1 56 0 0 1 true
        ⟨[⟨none, none, "other"⟩], []⟩).map Prod.fst = some (tx, tz) ∧
      ∃ e l, angular_move 1 56 0 0 1 true ⟨[], []⟩ =
        some ((tx, tz), ⟨([] : List MoveEntry) ++ [e], ([] : List GLine) ++ [l]⟩) :=
  angular_move_deterministic_effects 1 56 0 0 1 true ⟨[], []⟩
    ⟨[⟨none, none, "other"⟩], []⟩ (by norm_num)

/-- C6 counterexample: the line emitted by `angular_move` carries a feed field
that is interpolated without the `:.4f` format spec (the source writes
`F{cut_speed_ipm}.`), so not every numeric field is formatted to 4 decimal
places. -/
theorem emission_format_cex :
    ∃ r, angular_move 1 56 0 0 1 true ⟨[], []⟩ = some r ∧ ¬ allFieldsFixed4 r.2 := by
  refine ⟨_, angular_move_down_eq 1 56 0 0 1 ⟨[], []⟩ (by norm_num), ?_⟩
  intro h
  have hmem := h ⟨"G01", [⟨"X", 0 + |(1:ℝ)| / Real.tan (radians 56), NumFmt.fixed4⟩,
      ⟨"Z", (0:ℝ) - 1, NumFmt.fixed4⟩, ⟨"F", 1, NumFmt.rawRepr⟩], "."⟩
    (by simp) ⟨"F", 1, NumFmt.rawRepr⟩ (by simp)
  simp at hmem

/-- C6 amended: every rapid move emits exactly two lines and every controlled
single-axis move exactly one line, each containing only the changed axis
values and (for controlled moves) the feed rate, with all those fields
4-decimal formatted; the diagonal cut/retract move emits exactly one line
whose X and Z fields are 4-decimal formatted but whose feed-rate field is
interpolated raw, followed by a literal period. -/
theorem emission_format_spec (f a x y z d sp : ℝ) (down : Bool) (s : S) (ha : a ≠ 0) :
    ((rapid_move s x y z).out = s.out ++
        [⟨"G00", [⟨"X", x, NumFmt.fixed4⟩, ⟨"Y", y, NumFmt.fixed4⟩], ""⟩,
         ⟨"G43", [⟨"Z", z, NumFmt.fixed4⟩], "H01"⟩]) ∧
    ((slow_move_z s z sp).out = s.out ++
        [⟨"G01", [⟨"Z", z, NumFmt.fixed4⟩, ⟨"F", sp, NumFmt.fixed4⟩], ""⟩]) ∧
    ((slow_move_x s x sp).out = s.out ++
        [⟨"G01", [⟨"X", x, NumFmt.fixed4⟩, ⟨"F", sp, NumFmt.fixed4⟩], ""⟩]) ∧
    (∃ tx tz s', angular_move f a x z d down s = some ((tx, tz), s') ∧
      s'.out = s.out ++
        [⟨"G01", [⟨"X", tx, NumFmt.fixed4⟩, ⟨"Z", tz, NumFmt.fixed4⟩,
          ⟨"F", f, NumFmt.rawRepr⟩], "."⟩]) := by
  refine ⟨by simp [rapid_move, write], by simp [slow_move_z, write],
    by simp [slow_move_x, write], ?_⟩
  cases down
  · exact ⟨_, _, _, angular_move_up_eq f a x z d s ha, rfl⟩
  · exact ⟨_, _, _, angular_move_down_eq f a x z d s ha, rfl⟩

/-- Witness for C6's amended theorem at concrete inputs. -/
theorem emission_format_spec_witness :
    (((rapid_move ⟨[], []⟩ 2 3 4).out = ([] : List GLine) ++
        [⟨"G00", [⟨"X", 2, NumFmt.fixed4⟩, ⟨"Y", 3, NumFmt.fixed4⟩], ""⟩,
         ⟨"G43", [⟨"Z", 4, NumFmt.fixed4⟩], "H01"⟩]) ∧
    ((slow_move_z ⟨[], []⟩ 4 25).out = ([] : List GLine) ++
        [⟨"G01", [⟨"Z", 4, NumFmt.fixed4⟩, ⟨"F", 25, NumFmt.fixed4⟩], ""⟩]) ∧
    ((slow_move_x ⟨[], []⟩ 2 25).out = ([] : List GLine) ++
        [⟨"G01", [⟨"X", 2, NumFmt.fixed4⟩, ⟨"F", 25, NumFmt.fixed4⟩], ""⟩]) ∧
    (∃ tx tz s', angular_move 1 56 2 4 1 true ⟨[], []⟩ = some ((tx, tz), s') ∧
      s'.out = ([] : List GLine) ++
        [⟨"G01", [⟨"X", tx, NumFmt.fixed4⟩, ⟨"Z", tz, NumFmt.fixed4⟩,
          ⟨"F", 1, NumFmt.rawRepr⟩], "."⟩])) :=
  emission_format_spec 1 56 2 3 4 1 25 true ⟨[], []⟩ (by norm_num)

/-- C7 counterexample: with spacing 2 and length 1 the computed cut count is
0, yet `main` succeeds and emits a 10-line setup-only instruction file (7
preamble lines plus 3 setup-move lines) instead of failing with a
`ConfigurationError` before emitting anything. -/
theorem zero_cuts_cex :
    cut_count zeroCycleParams = 0 ∧
      ∃ s', main zeroCycleParams = some s' ∧ s'.out.length = 10 ∧
        s'.out ≠ ([] : List GLine) := by
  obtain ⟨s', h1, _, h3⟩ := main_lengths zeroCycleParams (by norm_num [zeroCycleParams])
    (by norm_num [zeroCycleParams])
  have hlen : s'.out.length = 10 := by
    rw [h3, cut_count_zeroCycle]
    rfl
  refine ⟨cut_count_zeroCycle, s', h1, hlen, ?_⟩
  intro hnil
  rw [hnil] at hlen
  simp at hlen

/-- C7 amended: the code performs no cut-count or spacing validation.  When
`cut_spacing_in ≠ 0`, the angle is nonzero and the computed cut count is ≤ 0,
`main` succeeds and produces a setup-only file — exactly the 7 preamble lines
plus the 3 setup-move lines, with the 2 setup log entries — rather than
failing with a `ConfigurationError`; only `cut_spacing_in = 0` makes `main`
fail, and then with a `ZeroDivisionError` after the setup output. -/
theorem zero_cut_count_setup_only (p : Params) (hsp : p.cut_spacing_in ≠ 0)
    (ha : p.cut_angle_deg ≠ 0) (hc : cut_count p ≤ 0) :
    (∃ s', main p = some s' ∧ s'.out.length = 10 ∧ s'.log.length = 2) ∧
    (∀ q : Params, q.cut_spacing_in = 0 → main q = none) := by
  constructor
  · obtain ⟨s', h1, h2, h3⟩ := main_lengths p hsp ha
    have hz : (cut_count p).toNat = 0 := Int.toNat_of_nonpos hc
    rw [hz] at h2 h3
    exact ⟨s', h1, by rw [h3], by rw [h2]⟩
  · intro q hq
    simp only [main]
    rw [if_pos hq]

/-- Witness for C7's amended theorem at the zero-cycle parameters. -/
theorem zero_cut_count_setup_only_witness :
    ((∃ s', main zeroCycleParams = some s' ∧ s'.out.length = 10 ∧
        s'.log.length = 2) ∧
      (∀ q : Params, q.cut_spacing_in = 0 → main q = none)) :=
  zero_cut_count_setup_only zeroCycleParams (by norm_num [zeroCycleParams])
    (by norm_num [zeroCycleParams]) (by rw [cut_count_zeroCycle])

/-- C8: for every positive spacing and non-negative material length the
planner runs exactly `floor(material_length / cut_spacing)` cut cycles — the
loop bound equals that floor and the move log holds the 2 setup entries plus
exactly 3 entries per cycle — and in particular, when the length is an exact
multiple `k · spacing` the count is exactly `k`, not one more or fewer. -/
theorem cut_count_floor_exact (p : Params) (hsp : 0 < p.cut_spacing_in)
    (hlen : 0 ≤ p.wax_length_in) (ha : p.cut_angle_deg ≠ 0) :
    cut_count p = ⌊p.wax_length_in / p.cut_spacing_in⌋ ∧
    (∃ s', main p = some s' ∧
      s'.log.length = 2 + 3 * (⌊p.wax_length_in / p.cut_spacing_in⌋).toNat) ∧
    ∀ k : ℕ, p.wax_length_in = k * p.cut_spacing_in → cut_count p = k := by
  have hfl : cut_count p = ⌊p.wax_length_in / p.cut_spacing_in⌋ :=
    pyInt_of_nonneg _ (div_nonneg hlen (le_of_lt hsp))
  refine ⟨hfl, ?_, fun k hk => cut_count_exact p k hsp hk⟩
  obtain ⟨s', h1, h2, _⟩ := main_lengths p (ne_of_gt hsp) ha
  refine ⟨s', h1, ?_⟩
  rw [h2, hfl]

/-- Witness for C8 at a length that is not a multiple of the spacing:
`2.5 / 1` gives `⌊2.5⌋ = 2` cut cycles, hence 2 + 3·2 = 8 log entries. -/
theorem cut_count_floor_exact_witness :
    0 < fracCycleParams.cut_spacing_in ∧ 0 ≤ fracCycleParams.wax_length_in ∧
    ⌊fracCycleParams.wax_length_in / fracCycleParams.cut_spacing_in⌋ = 2 ∧
    (cut_count fracCycleParams =
        ⌊fracCycleParams.wax_length_in / fracCycleParams.cut_spacing_in⌋ ∧
      (∃ s', main fracCycleParams = some s' ∧
        s'.log.length = 2 + 3 *
          (⌊fracCycleParams.wax_length_in / fracCycleParams.cut_spacing_in⌋).toNat) ∧
      ∀ k : ℕ, fracCycleParams.wax_length_in = k * fracCycleParams.cut_spacing_in →
        cut_count fracCycleParams = k) :=
  ⟨by norm_num [fracCycleParams], by norm_num [fracCycleParams],
   by norm_num [fracCycleParams],
   cut_count_floor_exact fracCycleParams (by norm_num [fracCycleParams])
     (by norm_num [fracCycleParams]) (by norm_num [fracCycleParams])⟩

/-- C9 counterexample: negating `z_depth` does not return the same target:
with depth -1 the descending move from the origin at 45° ends at (1, 1),
while with depth 1 it ends at (1, -1) — only the horizontal component uses
the absolute value, the vertical one flips. -/
theorem neg_depth_cex :
    (angular_move 1 45 0 0 (-1) true ⟨[], []⟩).map Prod.fst = some ((1:ℝ), (1:ℝ)) ∧
    (angular_move 1 45 0 0 1 true ⟨[], []⟩).map Prod.fst = some ((1:ℝ), (-1:ℝ)) ∧
    ((1:ℝ), (1:ℝ)) ≠ ((1:ℝ), (-1:ℝ)) := by
  refine ⟨?_, ?_, ?_⟩
  · rw [angular_move_down_eq 1 45 0 0 (-1) ⟨[], []⟩ (by norm_num)]
    simp only [Option.map_some']
    rw [tan_radians_forty_five]
    norm_num
  · rw [angular_move_down_eq 1 45 0 0 1 ⟨[], []⟩ (by norm_num)]
    simp only [Option.map_some']
    rw [tan_radians_forty_five]
    norm_num
  · intro h
    have := congrArg Prod.snd h
    norm_num at this

/-- C9 amended: only the horizontal displacement is computed from
`abs z_depth`; the vertical displacement uses the signed value.  Replacing
`z_depth` by `-z_depth` therefore leaves `target_x` unchanged and reflects
`target_z` about `current_z` (the two vertical targets sum to
`2 * current_z`), rather than returning the same target. -/
theorem neg_depth_reflection (f a x z d : ℝ) (down : Bool) (s : S) (ha : a ≠ 0) :
    ∃ tx tz tz', (angular_move f a x z d down s).map Prod.fst = some (tx, tz) ∧
      (angular_move f a x z (-d) down s).map Prod.fst = some (tx, tz') ∧
      tz + tz' = 2 * z := by
  cases down
  · refine ⟨x - |d| / Real.tan (radians a), z + d, z - d, ?_, ?_, by ring⟩
    · rw [angular_move_up_eq f a x z d s ha]
      rfl
    · have h := angular_move_up_eq f a x z (-d) s ha
      rw [abs_neg] at h
      rw [h]
      simp only [Option.map_some']
      norm_num
      ring_nf
  · refine ⟨x + |d| / Real.tan (radians a), z - d, z + d, ?_, ?_, by ring⟩
    · rw [angular_move_down_eq f a x z d s ha]
      rfl
    · have h := angular_move_down_eq f a x z (-d) s ha
      rw [abs_neg] at h
      rw [h]
      simp only [Option.map_some']
      norm_num

/-- Witness for C9's amended theorem at 45° from (0, 0) with depth 1. -/
theorem neg_depth_reflection_witness :
    ∃ tx tz tz', (angular_move 1 45 0 0 1 true ⟨[], []⟩).map Prod.fst = some (tx, tz) ∧
      (angular_move 1 45 0 0 (-1) true ⟨[], []⟩).map Prod.fst = some (tx, tz') ∧
      tz + tz' = 2 * 0 :=
  neg_depth_reflection 1 45 0 0 1 true ⟨[], []⟩ (by norm_num)

/-- C10: every cut cycle `i` appends exactly the lateral step to
`i · cut_spacing`, a plunge entry whose depth is exactly `-cut_depth`
(that is, `retract_height - (cut_depth + retract_height)`), and a retract
entry ending exactly at `(i · cut_spacing, retract_height)`: each cycle
returns the tool to retract height at that cycle's lateral position, so the
net lateral advance per cycle is exactly `cut_spacing`, contributed solely by
the lateral step. -/
theorem cut_cycle_invariant (p : Params) (i : ℕ) (s : S)
    (ha : p.cut_angle_deg ≠ 0) :
    ∃ dx s', cut_cycle p i s = some s' ∧
      s'.log = s.log ++
        [⟨some ((i : ℝ) * p.cut_spacing_in), none, "slow"⟩,
         ⟨some ((i : ℝ) * p.cut_spacing_in + dx), some (-p.cut_depth_in), "cut"⟩,
         ⟨some ((i : ℝ) * p.cut_spacing_in), some p.z_retract_height_in, "retract"⟩] := by
  exact ⟨|p.cut_depth_in + p.z_retract_height_in| / Real.tan (radians p.cut_angle_deg),
    _, cut_cycle_eq p ha i s, rfl⟩

/-- Witness for C10 at the source's default parameters, cycle 0, empty
state. -/
theorem cut_cycle_invariant_witness :
    ∃ dx s', cut_cycle defaultParams 0 ⟨[], []⟩ = some s' ∧
      s'.log = ([] : List MoveEntry) ++
        [⟨some (((0 : ℕ) : ℝ) * defaultParams.cut_spacing_in), none, "slow"⟩,
         ⟨some (((0 : ℕ) : ℝ) * defaultParams.cut_spacing_in + dx),
          some (-defaultParams.cut_depth_in), "cut"⟩,
         ⟨some (((0 : ℕ) : ℝ) * defaultParams.cut_spacing_in),
          some defaultParams.z_retract_height_in, "retract"⟩] := by
  exact cut_cycle_invariant defaultParams 0 ⟨[], []⟩ (by norm_num [defaultParams])
